import Mathlib

/-!
Verification of the sources-registry TypeScript helper module and of the
registry / source-item protocol it drives.  Strings are modelled as their
UTF-8 byte lists, 256-bit digests as natural numbers, and TON cells as a
bits-plus-references tree.  The SHA-256 digest and the cell hash are kept
abstract (parameters `S` and `H`); collision resistance enters only as
hypotheses that specific, provably distinct preimages have distinct images.
-/

/-- Byte strings (each entry is one byte, `< 256` for well-formed data). -/
abbrev Bytes := List Nat

/-- Big-endian bit representation of `v` in exactly `n` bits (low bits of `v`). -/
def natBits : Nat → Nat → List Bool
  | _, 0 => []
  | v, n + 1 => natBits (v / 2) n ++ [v % 2 == 1]

/-- Value of a big-endian bit list. -/
def bitsToNat (bs : List Bool) : Nat :=
  List.foldl (fun a b => 2 * a + (if b then 1 else 0)) 0 bs

/-- Big-endian byte representation of `v` in exactly `n` bytes. -/
def natToBytes : Nat → Nat → Bytes
  | _, 0 => []
  | v, n + 1 => natToBytes (v / 256) n ++ [v % 256]

/-- Bit expansion of a byte string, eight bits per byte. -/
def bytesToBits : Bytes → List Bool
  | [] => []
  | b :: t => natBits b 8 ++ bytesToBits t

/-- Big-endian number denoted by a byte string (bn.js buffer semantics). -/
def beNat (bs : Bytes) : Nat :=
  List.foldl (fun a b => 256 * a + b) 0 bs

/-- A concrete stand-in digest used by witnesses: base-257 with offset, so that
distinct short byte strings get distinct small values. -/
def encB (bs : Bytes) : Nat :=
  List.foldl (fun a b => 257 * a + b + 1) 0 bs

theorem length_natBits (v n : Nat) : (natBits v n).length = n := by
  induction n generalizing v with
  | zero => rfl
  | succ n ih => simp [natBits, ih]

theorem bitsToNat_append_bit (xs : List Bool) (b : Bool) :
    bitsToNat (xs ++ [b]) = 2 * bitsToNat xs + (if b then 1 else 0) := by
  simp [bitsToNat, List.foldl_append]

theorem bitsToNat_natBits (v n : Nat) : bitsToNat (natBits v n) = v % 2 ^ n := by
  induction n generalizing v with
  | zero => simp [natBits, bitsToNat, Nat.mod_one]
  | succ n ih =>
    rw [natBits, bitsToNat_append_bit, ih]
    have h1 : v / 2 % 2 ^ n = v % 2 ^ (n + 1) / 2 := by
      rw [Nat.pow_succ, Nat.mul_comm, Nat.mod_mul_right_div_self]
    have h3 : v % 2 ^ (n + 1) % 2 = v % 2 :=
      Nat.mod_mod_of_dvd v (dvd_pow_self 2 (Nat.succ_ne_zero n))
    have h4 := Nat.div_add_mod (v % 2 ^ (n + 1)) 2
    rcases Nat.mod_two_eq_zero_or_one v with h | h <;> simp [h] <;> omega

theorem natBits_injOn (v w n : Nat) (hv : v < 2 ^ n) (hw : w < 2 ^ n)
    (h : natBits v n = natBits w n) : v = w := by
  have := congrArg bitsToNat h
  rwa [bitsToNat_natBits, bitsToNat_natBits, Nat.mod_eq_of_lt hv, Nat.mod_eq_of_lt hw] at this

theorem natBits_split (m k v : Nat) :
    natBits v (m + k) = natBits (v / 2 ^ k) m ++ natBits (v % 2 ^ k) k := by
  induction k generalizing v with
  | zero => simp [natBits, Nat.mod_one]
  | succ k ih =>
    have e1 : m + (k + 1) = (m + k) + 1 := rfl
    rw [e1, natBits, ih, natBits]
    have h1 : v / 2 % 2 ^ k = v % 2 ^ (k + 1) / 2 := by
      rw [Nat.pow_succ, Nat.mul_comm, Nat.mod_mul_right_div_self]
    have h2 : v / 2 / 2 ^ k = v / 2 ^ (k + 1) := by
      rw [Nat.div_div_eq_div_mul, Nat.pow_succ, Nat.mul_comm]
    have h3 : v % 2 ^ (k + 1) % 2 = v % 2 :=
      Nat.mod_mod_of_dvd v (dvd_pow_self 2 (Nat.succ_ne_zero k))
    rw [h1, h2, h3, List.append_assoc]

theorem natBits_mod (v n : Nat) : natBits (v % 2 ^ n) n = natBits v n := by
  induction n generalizing v with
  | zero => rfl
  | succ n ih =>
    have h1 : v % 2 ^ (n + 1) / 2 = v / 2 % 2 ^ n := by
      rw [Nat.pow_succ, Nat.mul_comm, Nat.mod_mul_right_div_self]
    have h3 : v % 2 ^ (n + 1) % 2 = v % 2 :=
      Nat.mod_mod_of_dvd v (dvd_pow_self 2 (Nat.succ_ne_zero n))
    rw [natBits, natBits, h1, h3, ih]

theorem bytesToBits_append (xs ys : Bytes) :
    bytesToBits (xs ++ ys) = bytesToBits xs ++ bytesToBits ys := by
  induction xs with
  | nil => rfl
  | cons b t ih => simp [bytesToBits, ih]

theorem bytesToBits_natToBytes (v n : Nat) :
    bytesToBits (natToBytes v n) = natBits v (8 * n) := by
  induction n generalizing v with
  | zero => rfl
  | succ n ih =>
    have e1 : 8 * (n + 1) = 8 * n + 8 := by ring
    rw [natToBytes, bytesToBits_append, ih, e1, natBits_split]
    have e2 : (2 : Nat) ^ 8 = 256 := by norm_num
    simp [bytesToBits, e2]

theorem length_bytesToBits (bs : Bytes) : (bytesToBits bs).length = 8 * bs.length := by
  induction bs with
  | nil => rfl
  | cons b t ih => simp [bytesToBits, length_natBits, ih]; ring

theorem length_natToBytes (v n : Nat) : (natToBytes v n).length = n := by
  induction n generalizing v with
  | zero => rfl
  | succ n ih => simp [natToBytes, ih]

/-- A TON cell: up to 1023 data bits and up to four references to other cells.
The capacity limits are enforced by the builder operations below, as the ton
library does, not by the type itself. -/
inductive Cell where
  | mk (bits : List Bool) (refs : List Cell)

/-- Data bits of a cell. -/
def Cell.bits : Cell → List Bool
  | .mk bits _ => bits

/-- References of a cell. -/
def Cell.refs : Cell → List Cell
  | .mk _ refs => refs

mutual

def cellDecEq : (a b : Cell) → Decidable (a = b)
  | .mk b1 r1, .mk b2 r2 =>
    match decEq b1 b2 with
    | isFalse h => isFalse (by intro he; cases he; exact h rfl)
    | isTrue hb =>
      match cellListDecEq r1 r2 with
      | isTrue hr => isTrue (by rw [hb, hr])
      | isFalse hr => isFalse (by intro he; cases he; exact hr rfl)

def cellListDecEq : (a b : List Cell) → Decidable (a = b)
  | [], [] => isTrue rfl
  | [], _ :: _ => isFalse (by simp)
  | _ :: _, [] => isFalse (by simp)
  | x :: xs, y :: ys =>
    match cellDecEq x y with
    | isFalse h => isFalse (by intro he; cases he; exact h rfl)
    | isTrue hx =>
      match cellListDecEq xs ys with
      | isTrue ht => isTrue (by rw [hx, ht])
      | isFalse ht => isFalse (by intro he; cases he; exact ht rfl)

end

instance : DecidableEq Cell := cellDecEq

/-- A TON address: workchain id and a 256-bit account hash. -/
structure Addr where
  workchain : Int
  hash : Nat
deriving DecidableEq

/-- The `Address` invariants the ton library maintains: the workchain fits a
signed 8-bit field and the hash is a 256-bit value. -/
def validAddr (a : Addr) : Prop :=
  -128 ≤ a.workchain ∧ a.workchain < 128 ∧ a.hash < 2 ^ 256

instance (a : Addr) : Decidable (validAddr a) := by
  unfold validAddr; infer_instance

/-- Two's-complement big-endian bit pattern of a signed integer in `n` bits. -/
def intBits (i : Int) (n : Nat) : List Bool :=
  natBits (i % (2 ^ n : Int)).toNat n

/-- Value of a two's-complement big-endian bit list. -/
def sintOfBits (bs : List Bool) : Int :=
  if bitsToNat bs < 2 ^ (bs.length - 1) then (bitsToNat bs : Int)
  else (bitsToNat bs : Int) - 2 ^ bs.length

/-- Serialization of an internal address (`addr_std`): tag `10`, no anycast,
8-bit signed workchain, 256-bit hash. -/
def addrBits (a : Addr) : List Bool :=
  [true, false] ++ [false] ++ intBits a.workchain 8 ++ natBits a.hash 256

/-- An unfinished cell under construction. -/
structure Builder where
  bits : List Bool
  refs : List Cell
deriving DecidableEq

/-- The empty builder, `beginCell()`. -/
def beginCellB : Builder := ⟨[], []⟩

/-- Append raw bits, failing when the 1023-bit cell capacity is exceeded. -/
def storeBits (b : Builder) (bs : List Bool) : Except String Builder :=
  if b.bits.length + bs.length ≤ 1023 then .ok ⟨b.bits ++ bs, b.refs⟩
  else .error "cell capacity exceeded"

/-- `storeUint(v, n)`: fails when `v` does not fit in `n` bits. -/
def storeUint (b : Builder) (v n : Nat) : Except String Builder :=
  if v < 2 ^ n then storeBits b (natBits v n)
  else .error "number does not fit in bits"

/-- `storeInt(i, n)`: fails when `i` does not fit in `n` bits as a signed value. -/
def storeInt (b : Builder) (i : Int) (n : Nat) : Except String Builder :=
  if -(2 ^ (n - 1) : Int) ≤ i ∧ i < 2 ^ (n - 1) then storeBits b (intBits i n)
  else .error "number does not fit in bits"

/-- `storeBuffer`: append a byte string as bits. -/
def storeBuffer (b : Builder) (bs : Bytes) : Except String Builder :=
  storeBits b (bytesToBits bs)

/-- `storeRef`: fails when the four-reference limit is exceeded. -/
def storeRef (b : Builder) (c : Cell) : Except String Builder :=
  if b.refs.length < 4 then .ok ⟨b.bits, b.refs ++ [c]⟩
  else .error "too many references"

/-- `storeAddress`: `addr_std` serialization of a valid address. -/
def storeAddress (b : Builder) (a : Addr) : Except String Builder :=
  if validAddr a then storeBits b (addrBits a)
  else .error "invalid address"

/-- `storeDict`: a maybe-reference; a present dictionary cell is one set bit
followed by a reference. -/
def storeDict (b : Builder) (c : Option Cell) : Except String Builder :=
  match c with
  | none => storeBits b [false]
  | some c => do
    let b1 ← storeBits b [true]
    storeRef b1 c

/-- Number of bytes needed to represent `v` (zero for `v = 0`). -/
def bytesLen (v : Nat) : Nat :=
  if v = 0 then 0 else bytesLen (v / 256) + 1
decreasing_by exact Nat.div_lt_self (Nat.pos_of_ne_zero (by assumption)) (by norm_num)

/-- `storeCoins`: variable-length unsigned integer, a 4-bit byte count followed
by that many bytes; fails for values of 16 bytes or more. -/
def storeCoins (b : Builder) (v : Nat) : Except String Builder :=
  if v < 2 ^ 120 then storeBits b (natBits (bytesLen v) 4 ++ natBits v (8 * bytesLen v))
  else .error "coins out of range"

/-- `endCell()`. -/
def endCell (b : Builder) : Cell := ⟨b.bits, b.refs⟩

/-- `Slice.readAddress()`: parse an `addr_std` at the start of the bits,
returning `none` for an address-less or malformed prefix. -/
def readAddress (bs : List Bool) : Option Addr :=
  match bs with
  | true :: false :: anycast :: rest =>
    if anycast = false ∧ 264 ≤ rest.length then
      some ⟨sintOfBits (rest.take 8), bitsToNat ((rest.drop 8).take 256)⟩
    else none
  | _ => none

/-! Embedding of `contracts/sources-registry.ts` (src/unnamed/part_000).
Strings are their UTF-8 byte lists; the SHA-256 digest is an abstract
parameter `S : Bytes → Nat` returning the 256-bit digest value, and the cell
hash is an abstract parameter `H : Cell → Nat`.  The compiled source-item code
cell, imported by the module from a build artifact, is the parameter
`srcItem : Cell`. -/

/-- The template-literal argument of `prepareKey`'s digest: the bytes of the
string `verifierId:codeCell` (58 is the colon). -/
def keyPreimage (verifierId codeCell : Bytes) : Bytes :=
  verifierId ++ [58] ++ codeCell

/-- `prepareKey`: the 32-byte SHA-256 digest of `verifierId:codeCell`. -/
def prepareKey (S : Bytes → Nat) (verifierId codeCell : Bytes) : Bytes :=
  natToBytes (S (keyPreimage verifierId codeCell)) 32

/-- `toSha256Buffer`: the 32-byte SHA-256 digest of a string. -/
def toSha256Buffer (S : Bytes → Nat) (s : Bytes) : Bytes :=
  natToBytes (S s) 32

/-- The `data` cell built inside `keyToAddress`: the prepared key followed by
the registry address. -/
def srcItemData (S : Bytes → Nat) (verifierId codeCell : Bytes)
    (registryAddress : Addr) : Except String Cell := do
  let b ← storeBuffer beginCellB (prepareKey S verifierId codeCell)
  let b ← storeAddress b registryAddress
  pure (endCell b)

/-- `keyToAddress`: build the child state-init cell (no split depth or special,
code reference = the source-item template, data reference = the key/registry
data, empty library), hash it, serialize tag `100`, workchain `0` and the hash,
and parse the result back as an address. -/
def keyToAddress (S : Bytes → Nat) (H : Cell → Nat) (srcItem : Cell)
    (verifierId codeCell : Bytes) (registryAddress : Addr) :
    Except String Addr := do
  let d ← srcItemData S verifierId codeCell registryAddress
  let b ← storeUint beginCellB 0 2
  let b ← storeDict b (some srcItem)
  let b ← storeDict b (some d)
  let b ← storeUint b 0 1
  let si := endCell b
  let f ← storeUint beginCellB 4 3
  let f ← storeInt f 0 8
  let f ← storeUint f (H si) 256
  match readAddress (endCell f).bits with
  | some a => pure a
  | none => .error "cell underflow"

/-- Closed form of the state-init cell `keyToAddress` hashes. -/
def siVal (S : Bytes → Nat) (srcItem : Cell) (verifierId codeCell : Bytes)
    (registryAddress : Addr) : Cell :=
  ⟨[false, false, true, true, false],
   [srcItem,
    ⟨bytesToBits (prepareKey S verifierId codeCell) ++ addrBits registryAddress, []⟩]⟩

/-- Six-bit value of one base64 alphabet byte, both standard and URL-safe;
`none` for every byte outside the alphabet. -/
def b64Val (b : Nat) : Option Nat :=
  if 65 ≤ b ∧ b ≤ 90 then some (b - 65)
  else if 97 ≤ b ∧ b ≤ 122 then some (b - 71)
  else if 48 ≤ b ∧ b ≤ 57 then some (b + 4)
  else if b = 43 ∨ b = 45 then some 62
  else if b = 47 ∨ b = 95 then some 63
  else none

/-- Reassemble decoded six-bit groups into bytes; a trailing group of two or
three values yields one or two bytes, a lone value is dropped. -/
def b64Groups : List Nat → Bytes
  | v1 :: v2 :: v3 :: v4 :: rest =>
    (v1 * 4 + v2 / 16) :: ((v2 % 16) * 16 + v3 / 4) :: ((v3 % 4) * 64 + v4) :: b64Groups rest
  | [v1, v2] => [v1 * 4 + v2 / 16]
  | [v1, v2, v3] => [v1 * 4 + v2 / 16, (v2 % 16) * 16 + v3 / 4]
  | _ => []

/-- `Buffer.from(s, "base64")` as Node implements it: bytes outside the
alphabet (including padding) are skipped and a leftover character is dropped;
no input is rejected. -/
def nodeB64 (s : Bytes) : Bytes :=
  b64Groups (s.filterMap b64Val)

/-- `deploySource`: op 1002, query id 0, the digest of the verifier id, the
base64-decoded code cell hash as a 256-bit integer, and a reference cell
holding the JSON URL bytes. -/
def deploySource (S : Bytes → Nat) (verifierId codeCellHash jsonURL : Bytes) :
    Except String Cell := do
  let b ← storeUint beginCellB 1002 32
  let b ← storeUint b 0 64
  let b ← storeBuffer b (toSha256Buffer S verifierId)
  let b ← storeUint b (beNat (nodeB64 codeCellHash)) 256
  let u ← storeBuffer beginCellB jsonURL
  let b ← storeRef b (endCell u)
  pure (endCell b)

/-- `changeVerifierRegistry`: op 2003, query id 0, the new registry address. -/
def changeVerifierRegistry (newVerifierRegistry : Addr) : Except String Cell := do
  let b ← storeUint beginCellB 2003 32
  let b ← storeUint b 0 64
  let b ← storeAddress b newVerifierRegistry
  pure (endCell b)

/-- `changeAdmin`: op 3004, query id 0, the new admin address. -/
def changeAdmin (newAdmin : Addr) : Except String Cell := do
  let b ← storeUint beginCellB 3004 32
  let b ← storeUint b 0 64
  let b ← storeAddress b newAdmin
  pure (endCell b)

/-- `setSourceItemCode`: op 4005, query id 0, the new code as a reference. -/
def setSourceItemCode (newCode : Cell) : Except String Cell := do
  let b ← storeUint beginCellB 4005 32
  let b ← storeUint b 0 64
  let b ← storeRef b newCode
  pure (endCell b)

/-- `changeCode`: op 5006, query id 0, the new code as a reference. -/
def changeCode (newCode : Cell) : Except String Cell := do
  let b ← storeUint beginCellB 5006 32
  let b ← storeUint b 0 64
  let b ← storeRef b newCode
  pure (endCell b)

/-- `setDeploymentCosts`: op 6007, query id 0, min and max as coin amounts. -/
def setDeploymentCosts (minTon maxTon : Nat) : Except String Cell := do
  let b ← storeUint beginCellB 6007 32
  let b ← storeUint b 0 64
  let b ← storeCoins b minTon
  let b ← storeCoins b maxTon
  pure (endCell b)

/-- The 64-bit query-identifier field of an encoded message cell. -/
def queryIdOf (c : Cell) : Nat :=
  bitsToNat ((c.bits.drop 32).take 64)

set_option maxRecDepth 8000

/-! Spec-modelled part.  The FunC contracts (`sources-registry.fc`,
`source-item.fc`) are not part of the sources here; only their TypeScript
tests are.  The state machines below are modelled from the spec (sections
4.3 and 4.5), with the fee-floor boundary pinned by the in-repository test
that rejects a new minimum of exactly 0.05 TON with exit code 903. -/

/-- Modelled from the spec: persistent registry state (§3), matching the
`save_data` layout of the missing `sources-registry.fc` (min/max deploy fee,
admin, verifier registry, source-item code) plus the registry's own code,
which the ReplaceRegistryCode operation swaps. -/
structure RegState where
  minTons : Nat
  maxTons : Nat
  admin : Addr
  verifierRegistryAddress : Addr
  sourceItemCode : Cell
  registryCode : Cell
deriving DecidableEq

/-- Modelled from the spec: the execution context of one inbound message. -/
structure RegCtx where
  sender : Addr
  attachedValue : Nat
deriving DecidableEq

/-- Modelled from the spec: decoded registry operations (§4.3), with the
deploy payload already split into the two 256-bit key fields of the wire
format (§6). -/
inductive RegOp where
  | deploySrc (verifierKey contentKey : Nat) (contentPointer : Bytes)
  | changeVerifierSrc (a : Addr)
  | changeAdminOp (a : Addr)
  | setChildCode (c : Cell)
  | replaceRegCode (c : Cell)
  | setFeeBounds (newMin newMax : Nat)
deriving DecidableEq

/-- Modelled from the spec: the child-creation action a successful deploy
emits, carrying the new child's key material and the content pointer that is
forwarded to it. -/
structure DeployAct where
  verifierKey : Nat
  contentKey : Nat
  contentPointer : Bytes
deriving DecidableEq

/-- Modelled from the spec: apply-or-reject outcome of one operation. -/
inductive RegResult where
  | ok (s : RegState) (act : Option DeployAct)
  | reject (code : Nat)
deriving DecidableEq

/-- A cell with no data bits and no references, as built by
`beginCell().endCell()` in the empty-code tests. -/
def cellIsEmpty (c : Cell) : Bool :=
  c.bits.isEmpty && c.refs.isEmpty

/-- Modelled from the spec and the fee tests: new minimum fees of 0.05 TON
(50000000 nanotons) and below are rejected with 903. -/
def minFeeFloor : Nat := 50000000

/-- Modelled from the spec: the registry dispatch table (§4.3).  Sender
authorization is checked first (the non-admin empty-code test expects 401,
not 902), then operation-specific preconditions; a rejection produces no
state and no action. -/
def applyReg (s : RegState) (ctx : RegCtx) (op : RegOp) : RegResult :=
  match op with
  | .deploySrc vk ck ptr =>
    if ctx.sender ≠ s.verifierRegistryAddress then .reject 401
    else if ctx.attachedValue < s.minTons then .reject 900
    else if s.maxTons < ctx.attachedValue then .reject 901
    else .ok s (some ⟨vk, ck, ptr⟩)
  | .changeVerifierSrc a =>
    if ctx.sender ≠ s.admin then .reject 401
    else .ok { s with verifierRegistryAddress := a } none
  | .changeAdminOp a =>
    if ctx.sender ≠ s.admin then .reject 401
    else .ok { s with admin := a } none
  | .setChildCode c =>
    if ctx.sender ≠ s.admin then .reject 401
    else if cellIsEmpty c then .reject 902
    else .ok { s with sourceItemCode := c } none
  | .replaceRegCode c =>
    if ctx.sender ≠ s.admin then .reject 401
    else if cellIsEmpty c then .reject 902
    else .ok { s with registryCode := c } none
  | .setFeeBounds newMin newMax =>
    if ctx.sender ≠ s.admin then .reject 401
    else if newMin ≤ minFeeFloor then .reject 903
    else .ok { s with minTons := newMin, maxTons := newMax } none

/-- Exit code of an operation: 0 on success, the rejection code otherwise. -/
def applyCode (s : RegState) (ctx : RegCtx) (op : RegOp) : Nat :=
  match applyReg s ctx op with
  | .ok _ _ => 0
  | .reject c => c

/-- The persistent state after an operation: the new state on success, the
unchanged old state on rejection (atomic apply-or-reject, §4.3). -/
def applyState (s : RegState) (ctx : RegCtx) (op : RegOp) : RegState :=
  match applyReg s ctx op with
  | .ok s2 _ => s2
  | .reject _ => s

/-- Modelled from the spec: a deployed child record's state (§3), with
`content = none` until the one permitted write. -/
structure SourceItemState where
  verifierKey : Nat
  contentKey : Nat
  registryAddress : Addr
  content : Option Bytes
deriving DecidableEq

/-- Modelled from the spec: outcome of a message to a child record. -/
inductive ChildResult where
  | ok (s : SourceItemState)
  | reject (code : Nat)
deriving DecidableEq

/-- Modelled from the spec: the child as the registry's creation action
instantiates it, in the empty state. -/
def freshSourceItem (vk ck : Nat) (reg : Addr) : SourceItemState :=
  ⟨vk, ck, reg, none⟩

/-- Modelled from the spec: the child's set-content transition (§4.5): only
the creating registry may write, and only once; the spec leaves the code of
a rejected second write open, so a generic non-zero code stands for it. -/
def sourceItemSetContent (s : SourceItemState) (sender : Addr) (ptr : Bytes) :
    ChildResult :=
  if sender ≠ s.registryAddress then .reject 401
  else match s.content with
    | none => .ok { s with content := some ptr }
    | some _ => .reject 65535

/-- Modelled from the spec: the child's read-only query
`(verifierKey, contentKey, registryAddress, contentPointerOrNull)`. -/
def sourceItemQuery (s : SourceItemState) : Nat × Nat × Addr × Option Bytes :=
  (s.verifierKey, s.contentKey, s.registryAddress, s.content)

/-- Modelled from the spec: the child initial storage of §4.2, the tuple
(verifierKey, contentKey, registryAddress, empty-content-marker), used to
compare the claimed layout with the one `keyToAddress` actually builds. -/
def specChildStorage (verifierKey contentKey : Nat) (registryAddress : Addr) : Cell :=
  ⟨natBits verifierKey 256 ++ natBits contentKey 256 ++ addrBits registryAddress ++ [false], []⟩

/-- Well-formed base64 text as the spec assumes it: length a multiple of four,
at most two trailing padding bytes, everything before the padding in the
base64 alphabet. -/
def wellFormedBase64 (s : Bytes) : Bool :=
  (s.length % 4 == 0) &&
  (decide ((s.reverse.takeWhile (fun b => b == 61)).length ≤ 2)) &&
  ((s.take (s.length - (s.reverse.takeWhile (fun b => b == 61)).length)).all
    (fun b => (b64Val b).isSome))

theorem ebind_ok {α β : Type} (a : α) (f : α → Except String β) :
    (Except.ok a >>= f : Except String β) = f a := rfl

theorem epure_ok {α : Type} (a : α) : (pure a : Except String α) = Except.ok a := rfl

theorem length_addrBits (a : Addr) : (addrBits a).length = 267 := by
  simp [addrBits, intBits, length_natBits]

theorem storeBits_ok (b : Builder) (bs : List Bool)
    (h : b.bits.length + bs.length ≤ 1023) :
    storeBits b bs = .ok ⟨b.bits ++ bs, b.refs⟩ := by
  simp [storeBits, h]

theorem storeUint_ok (b : Builder) (v n : Nat) (h1 : v < 2 ^ n)
    (h2 : b.bits.length + n ≤ 1023) :
    storeUint b v n = .ok ⟨b.bits ++ natBits v n, b.refs⟩ := by
  rw [storeUint, if_pos h1, storeBits_ok]
  rw [length_natBits]; exact h2

theorem storeBuffer_ok (b : Builder) (bs : Bytes)
    (h : b.bits.length + 8 * bs.length ≤ 1023) :
    storeBuffer b bs = .ok ⟨b.bits ++ bytesToBits bs, b.refs⟩ := by
  rw [storeBuffer, storeBits_ok]
  rw [length_bytesToBits]; exact h

theorem storeAddress_ok (b : Builder) (a : Addr) (ha : validAddr a)
    (h : b.bits.length + 267 ≤ 1023) :
    storeAddress b a = .ok ⟨b.bits ++ addrBits a, b.refs⟩ := by
  rw [storeAddress, if_pos ha, storeBits_ok]
  rw [length_addrBits]; exact h

theorem storeRef_ok (b : Builder) (c : Cell) (h : b.refs.length < 4) :
    storeRef b c = .ok ⟨b.bits, b.refs ++ [c]⟩ := by
  simp [storeRef, h]

theorem storeCoins_ok (b : Builder) (v : Nat) (h1 : v < 2 ^ 120)
    (h2 : b.bits.length + (4 + 8 * bytesLen v) ≤ 1023) :
    storeCoins b v =
      .ok ⟨b.bits ++ (natBits (bytesLen v) 4 ++ natBits v (8 * bytesLen v)), b.refs⟩ := by
  rw [storeCoins, if_pos h1, storeBits_ok]
  simp [length_natBits]
  omega

theorem srcItemData_ok (S : Bytes → Nat) (v c : Bytes) (r : Addr) (hr : validAddr r) :
    srcItemData S v c r =
      .ok ⟨bytesToBits (prepareKey S v c) ++ addrBits r, []⟩ := by
  have h1 : beginCellB.bits.length + 8 * (prepareKey S v c).length ≤ 1023 := by
    rw [prepareKey, length_natToBytes]
    show 0 + 8 * 32 ≤ 1023
    norm_num
  rw [srcItemData, storeBuffer_ok beginCellB _ h1, ebind_ok]
  have h2 : (⟨beginCellB.bits ++ bytesToBits (prepareKey S v c), beginCellB.refs⟩ :
      Builder).bits.length + 267 ≤ 1023 := by
    show (beginCellB.bits ++ bytesToBits (prepareKey S v c)).length + 267 ≤ 1023
    rw [List.length_append, length_bytesToBits, prepareKey, length_natToBytes]
    show 0 + 8 * 32 + 267 ≤ 1023
    norm_num
  rw [storeAddress_ok _ r hr h2, ebind_ok, epure_ok]
  have e1 : beginCellB.bits = ([] : List Bool) := rfl
  have e2 : beginCellB.refs = ([] : List Cell) := rfl
  show Except.ok
      (endCell ⟨(beginCellB.bits ++ bytesToBits (prepareKey S v c)) ++ addrBits r,
        beginCellB.refs⟩) = _
  rw [e1, e2, List.nil_append, endCell]

theorem take_exact {α : Type} (l : List α) (n : Nat) (h : l.length = n) : l.take n = l := by
  subst h; exact List.take_length l

theorem readAddress_tagged (h : Nat) (hh : h < 2 ^ 256) :
    readAddress ([true, false, false, false, false, false, false, false, false, false,
      false] ++ natBits h 256) = some ⟨0, h⟩ := by
  show readAddress (true :: false :: false ::
    ([false, false, false, false, false, false, false, false] ++ natBits h 256)) = some ⟨0, h⟩
  rw [readAddress]
  rw [if_pos ⟨rfl, by rw [List.length_append, length_natBits]; norm_num⟩]
  rw [List.take_left'
    (show ([false, false, false, false, false, false, false, false] : List Bool).length = 8 from rfl)]
  rw [List.drop_left'
    (show ([false, false, false, false, false, false, false, false] : List Bool).length = 8 from rfl)]
  rw [take_exact _ _ (length_natBits h 256), bitsToNat_natBits, Nat.mod_eq_of_lt hh]
  have e4 : sintOfBits [false, false, false, false, false, false, false, false] = 0 := rfl
  rw [e4]

theorem keyToAddress_ok (S : Bytes → Nat) (H : Cell → Nat) (srcItem : Cell)
    (v c : Bytes) (r : Addr) (hr : validAddr r)
    (hH : H (siVal S srcItem v c r) < 2 ^ 256) :
    keyToAddress S H srcItem v c r = .ok ⟨0, H (siVal S srcItem v c r)⟩ := by
  rw [keyToAddress, srcItemData_ok S v c r hr, ebind_ok]
  have s1 : storeUint beginCellB 0 2 = Except.ok ⟨[false, false], []⟩ := rfl
  rw [s1, ebind_ok]
  have s2 : storeDict ⟨[false, false], []⟩ (some srcItem) =
      Except.ok ⟨[false, false, true], [srcItem]⟩ := rfl
  rw [s2, ebind_ok]
  have s3 : storeDict ⟨[false, false, true], [srcItem]⟩
      (some ⟨bytesToBits (prepareKey S v c) ++ addrBits r, []⟩) =
      Except.ok ⟨[false, false, true, true],
        [srcItem, ⟨bytesToBits (prepareKey S v c) ++ addrBits r, []⟩]⟩ := rfl
  rw [s3, ebind_ok]
  have s4 : storeUint ⟨[false, false, true, true],
      [srcItem, ⟨bytesToBits (prepareKey S v c) ++ addrBits r, []⟩]⟩ 0 1 =
      Except.ok ⟨[false, false, true, true, false],
        [srcItem, ⟨bytesToBits (prepareKey S v c) ++ addrBits r, []⟩]⟩ := rfl
  rw [s4, ebind_ok]
  have esi : endCell ⟨[false, false, true, true, false],
      [srcItem, ⟨bytesToBits (prepareKey S v c) ++ addrBits r, []⟩]⟩ =
      siVal S srcItem v c r := rfl
  rw [esi]
  have s5 : storeUint beginCellB 4 3 = Except.ok ⟨[true, false, false], []⟩ := rfl
  rw [s5, ebind_ok]
  have s6 : storeInt ⟨[true, false, false], []⟩ 0 8 =
      Except.ok ⟨[true, false, false, false, false, false, false, false, false, false,
        false], []⟩ := rfl
  rw [s6, ebind_ok]
  rw [storeUint_ok _ _ 256 hH (by show 11 + 256 ≤ 1023; norm_num), ebind_ok]
  have ebits : (endCell ⟨[true, false, false, false, false, false, false, false, false,
      false, false] ++ natBits (H (siVal S srcItem v c r)) 256, ([] : List Cell)⟩).bits =
      [true, false, false, false, false, false, false, false, false, false, false] ++
        natBits (H (siVal S srcItem v c r)) 256 := rfl
  rw [ebits, readAddress_tagged _ hH]
  rfl

theorem length_intBits (i : Int) (n : Nat) : (intBits i n).length = n := by
  unfold intBits; exact length_natBits _ _

theorem intBits8_injOn (i j : Int) (hi1 : -128 ≤ i) (hi2 : i < 128)
    (hj1 : -128 ≤ j) (hj2 : j < 128) (h : intBits i 8 = intBits j 8) : i = j := by
  unfold intBits at h
  have e8 : ((2 : Int) ^ (8 : Nat)) = 256 := by norm_num
  rw [e8] at h
  have hv : (i % (256 : Int)).toNat < 2 ^ 8 := by norm_num; omega
  have hw : (j % (256 : Int)).toNat < 2 ^ 8 := by norm_num; omega
  have := natBits_injOn _ _ 8 hv hw h
  omega

theorem addrBits_injOn (a b : Addr) (ha : validAddr a) (hb : validAddr b)
    (h : addrBits a = addrBits b) : a = b := by
  obtain ⟨ha1, ha2, ha3⟩ := ha
  obtain ⟨hb1, hb2, hb3⟩ := hb
  unfold addrBits at h
  simp only [List.cons_append, List.nil_append, List.cons.injEq, true_and] at h
  obtain ⟨h1, h2⟩ := List.append_inj h (by rw [length_intBits, length_intBits])
  have ew : a.workchain = b.workchain := intBits8_injOn _ _ ha1 ha2 hb1 hb2 h1
  have eh : a.hash = b.hash := natBits_injOn _ _ 256 ha3 hb3 h2
  cases a; cases b
  simp_all

theorem bits_of_prepareKey (S : Bytes → Nat) (v c : Bytes) :
    bytesToBits (prepareKey S v c) = natBits (S (keyPreimage v c)) 256 := by
  rw [prepareKey, bytesToBits_natToBytes]

theorem keyPreimage_ne_left (v v' c : Bytes) (h : v ≠ v') :
    keyPreimage v c ≠ keyPreimage v' c := by
  intro he
  unfold keyPreimage at he
  exact h (List.append_cancel_right (List.append_cancel_right he))

theorem keyPreimage_ne_right (v c c' : Bytes) (h : c ≠ c') :
    keyPreimage v c ≠ keyPreimage v c' := by
  intro he
  unfold keyPreimage at he
  exact h (List.append_cancel_left he)

theorem siVal_data_inj (S : Bytes → Nat) (srcItem srcItem' : Cell)
    (v v' c c' : Bytes) (r r' : Addr)
    (h : siVal S srcItem v c r = siVal S srcItem' v' c' r') :
    srcItem = srcItem' ∧
      bytesToBits (prepareKey S v c) = bytesToBits (prepareKey S v' c') ∧
      addrBits r = addrBits r' := by
  unfold siVal at h
  simp only [Cell.mk.injEq, List.cons.injEq, and_true, true_and] at h
  obtain ⟨hsrc, hdata⟩ := h
  refine ⟨hsrc, ?_, ?_⟩
  · exact (List.append_inj hdata (by
      rw [length_bytesToBits, length_bytesToBits, prepareKey, prepareKey,
        length_natToBytes, length_natToBytes])).1
  · exact (List.append_inj hdata (by
      rw [length_bytesToBits, length_bytesToBits, prepareKey, prepareKey,
        length_natToBytes, length_natToBytes])).2

theorem bits_of_sha (S : Bytes → Nat) (v : Bytes) :
    bytesToBits (toSha256Buffer S v) = natBits (S v) 256 := by
  rw [toSha256Buffer, bytesToBits_natToBytes]

theorem deploySource_ok (S : Bytes → Nat) (v c url : Bytes)
    (hc : beNat (nodeB64 c) < 2 ^ 256) (hurl : url.length ≤ 127) :
    deploySource S v c url =
      .ok ⟨natBits 1002 32 ++ natBits 0 64 ++ natBits (S v) 256 ++
            natBits (beNat (nodeB64 c)) 256,
           [⟨bytesToBits url, []⟩]⟩ := by
  rw [deploySource]
  rw [storeUint_ok beginCellB 1002 32 (by norm_num) (by show 0 + 32 ≤ 1023; norm_num), ebind_ok]
  rw [storeUint_ok _ 0 64 (by norm_num) (by
    show (beginCellB.bits ++ natBits 1002 32).length + 64 ≤ 1023
    rw [List.length_append, length_natBits]
    show 0 + 32 + 64 ≤ 1023
    norm_num), ebind_ok]
  rw [storeBuffer_ok _ (toSha256Buffer S v) (by
    show ((beginCellB.bits ++ natBits 1002 32) ++ natBits 0 64).length +
      8 * (toSha256Buffer S v).length ≤ 1023
    rw [List.length_append, List.length_append, length_natBits, length_natBits,
      toSha256Buffer, length_natToBytes]
    show 0 + 32 + 64 + 8 * 32 ≤ 1023
    norm_num), ebind_ok]
  rw [storeUint_ok _ (beNat (nodeB64 c)) 256 hc (by
    show (((beginCellB.bits ++ natBits 1002 32) ++ natBits 0 64) ++
      bytesToBits (toSha256Buffer S v)).length + 256 ≤ 1023
    rw [List.length_append, List.length_append, List.length_append, length_natBits,
      length_natBits, length_bytesToBits, toSha256Buffer, length_natToBytes]
    show 0 + 32 + 64 + 8 * 32 + 256 ≤ 1023
    norm_num), ebind_ok]
  rw [storeBuffer_ok beginCellB url (by
    show beginCellB.bits.length + 8 * url.length ≤ 1023
    have : beginCellB.bits.length = 0 := rfl
    omega), ebind_ok]
  rw [storeRef_ok _ (endCell ⟨beginCellB.bits ++ bytesToBits url, beginCellB.refs⟩) (by
    show ([] : List Cell).length < 4
    norm_num), ebind_ok, epure_ok]
  have e1 : beginCellB.bits = ([] : List Bool) := rfl
  have e2 : beginCellB.refs = ([] : List Cell) := rfl
  rw [e1, e2, List.nil_append, List.nil_append, bits_of_sha, endCell, endCell]
  rfl

theorem changeVerifierRegistry_ok (a : Addr) (ha : validAddr a) :
    changeVerifierRegistry a =
      .ok ⟨natBits 2003 32 ++ natBits 0 64 ++ addrBits a, []⟩ := by
  rw [changeVerifierRegistry]
  rw [storeUint_ok beginCellB 2003 32 (by norm_num) (by show 0 + 32 ≤ 1023; norm_num), ebind_ok]
  rw [storeUint_ok _ 0 64 (by norm_num) (by
    show (beginCellB.bits ++ natBits 2003 32).length + 64 ≤ 1023
    rw [List.length_append, length_natBits]
    show 0 + 32 + 64 ≤ 1023
    norm_num), ebind_ok]
  rw [storeAddress_ok _ a ha (by
    show ((beginCellB.bits ++ natBits 2003 32) ++ natBits 0 64).length + 267 ≤ 1023
    rw [List.length_append, List.length_append, length_natBits, length_natBits]
    show 0 + 32 + 64 + 267 ≤ 1023
    norm_num), ebind_ok, epure_ok]
  have e1 : beginCellB.bits = ([] : List Bool) := rfl
  rw [e1, List.nil_append, endCell]
  rfl

theorem changeAdmin_ok (a : Addr) (ha : validAddr a) :
    changeAdmin a = .ok ⟨natBits 3004 32 ++ natBits 0 64 ++ addrBits a, []⟩ := by
  rw [changeAdmin]
  rw [storeUint_ok beginCellB 3004 32 (by norm_num) (by show 0 + 32 ≤ 1023; norm_num), ebind_ok]
  rw [storeUint_ok _ 0 64 (by norm_num) (by
    show (beginCellB.bits ++ natBits 3004 32).length + 64 ≤ 1023
    rw [List.length_append, length_natBits]
    show 0 + 32 + 64 ≤ 1023
    norm_num), ebind_ok]
  rw [storeAddress_ok _ a ha (by
    show ((beginCellB.bits ++ natBits 3004 32) ++ natBits 0 64).length + 267 ≤ 1023
    rw [List.length_append, List.length_append, length_natBits, length_natBits]
    show 0 + 32 + 64 + 267 ≤ 1023
    norm_num), ebind_ok, epure_ok]
  have e1 : beginCellB.bits = ([] : List Bool) := rfl
  rw [e1, List.nil_append, endCell]
  rfl

theorem setSourceItemCode_ok (c : Cell) :
    setSourceItemCode c = .ok ⟨natBits 4005 32 ++ natBits 0 64, [c]⟩ := by
  rw [setSourceItemCode]
  rw [storeUint_ok beginCellB 4005 32 (by norm_num) (by show 0 + 32 ≤ 1023; norm_num), ebind_ok]
  rw [storeUint_ok _ 0 64 (by norm_num) (by
    show (beginCellB.bits ++ natBits 4005 32).length + 64 ≤ 1023
    rw [List.length_append, length_natBits]
    show 0 + 32 + 64 ≤ 1023
    norm_num), ebind_ok]
  rw [storeRef_ok _ c (by show ([] : List Cell).length < 4; norm_num), ebind_ok, epure_ok]
  have e1 : beginCellB.bits = ([] : List Bool) := rfl
  rw [e1, List.nil_append, endCell]
  rfl

theorem changeCode_ok (c : Cell) :
    changeCode c = .ok ⟨natBits 5006 32 ++ natBits 0 64, [c]⟩ := by
  rw [changeCode]
  rw [storeUint_ok beginCellB 5006 32 (by norm_num) (by show 0 + 32 ≤ 1023; norm_num), ebind_ok]
  rw [storeUint_ok _ 0 64 (by norm_num) (by
    show (beginCellB.bits ++ natBits 5006 32).length + 64 ≤ 1023
    rw [List.length_append, length_natBits]
    show 0 + 32 + 64 ≤ 1023
    norm_num), ebind_ok]
  rw [storeRef_ok _ c (by show ([] : List Cell).length < 4; norm_num), ebind_ok, epure_ok]
  have e1 : beginCellB.bits = ([] : List Bool) := rfl
  rw [e1, List.nil_append, endCell]
  rfl

theorem bytesLen_le (v k : Nat) (h : v < 2 ^ (8 * k)) : bytesLen v ≤ k := by
  induction k generalizing v with
  | zero =>
    have : v = 0 := by simpa using h
    rw [bytesLen, if_pos this]
  | succ k ih =>
    rw [bytesLen]
    split
    · omega
    · have hd : v / 256 < 2 ^ (8 * k) := by
        rw [Nat.div_lt_iff_lt_mul (by norm_num)]
        have e : (8 : Nat) * (k + 1) = 8 * k + 8 := by ring
        rw [e, pow_add] at h
        simpa using h
      have := ih _ hd
      omega

theorem setDeploymentCosts_ok (mn mx : Nat) (h1 : mn < 2 ^ 120) (h2 : mx < 2 ^ 120) :
    setDeploymentCosts mn mx =
      .ok ⟨natBits 6007 32 ++ natBits 0 64 ++
            (natBits (bytesLen mn) 4 ++ natBits mn (8 * bytesLen mn)) ++
            (natBits (bytesLen mx) 4 ++ natBits mx (8 * bytesLen mx)), []⟩ := by
  have e120 : (8 : Nat) * 15 = 120 := by norm_num
  have hl1 : bytesLen mn ≤ 15 := bytesLen_le mn 15 (by rw [e120]; exact h1)
  have hl2 : bytesLen mx ≤ 15 := bytesLen_le mx 15 (by rw [e120]; exact h2)
  rw [setDeploymentCosts]
  rw [storeUint_ok beginCellB 6007 32 (by norm_num) (by show 0 + 32 ≤ 1023; norm_num), ebind_ok]
  rw [storeUint_ok _ 0 64 (by norm_num) (by
    show (beginCellB.bits ++ natBits 6007 32).length + 64 ≤ 1023
    rw [List.length_append, length_natBits]
    show 0 + 32 + 64 ≤ 1023
    norm_num), ebind_ok]
  rw [storeCoins_ok _ mn h1 (by
    show ((beginCellB.bits ++ natBits 6007 32) ++ natBits 0 64).length +
      (4 + 8 * bytesLen mn) ≤ 1023
    rw [List.length_append, List.length_append, length_natBits, length_natBits]
    have e0 : beginCellB.bits.length = 0 := rfl
    omega), ebind_ok]
  rw [storeCoins_ok _ mx h2 (by
    show (((beginCellB.bits ++ natBits 6007 32) ++ natBits 0 64) ++
      (natBits (bytesLen mn) 4 ++ natBits mn (8 * bytesLen mn))).length +
      (4 + 8 * bytesLen mx) ≤ 1023
    rw [List.length_append, List.length_append, List.length_append, List.length_append,
      length_natBits, length_natBits, length_natBits, length_natBits]
    have e0 : beginCellB.bits.length = 0 := rfl
    omega), ebind_ok, epure_ok]
  have e1 : beginCellB.bits = ([] : List Bool) := rfl
  rw [e1, List.nil_append, endCell]
  rfl

theorem beNat_acc (t : Bytes) (a : Nat) :
    List.foldl (fun x y => 256 * x + y) a t = a * 256 ^ t.length + beNat t := by
  induction t generalizing a with
  | nil => simp [beNat]
  | cons b t ih =>
    show List.foldl (fun x y => 256 * x + y) (256 * a + b) t = _
    rw [ih]
    have hb : beNat (b :: t) = b * 256 ^ t.length + beNat t := by
      show List.foldl (fun x y => 256 * x + y) (256 * 0 + b) t = _
      rw [ih]
      ring_nf
    rw [hb]
    simp [List.length_cons, pow_succ]
    ring

theorem beNat_cons (b : Nat) (t : Bytes) :
    beNat (b :: t) = b * 256 ^ t.length + beNat t := by
  show List.foldl (fun x y => 256 * x + y) (256 * 0 + b) t = _
  rw [beNat_acc]
  ring_nf

theorem beNat_lt (bs : Bytes) (hb : ∀ b ∈ bs, b < 256) : beNat bs < 256 ^ bs.length := by
  induction bs with
  | nil => simp [beNat]
  | cons b t ih =>
    rw [beNat_cons]
    have h1 : b < 256 := hb b (List.mem_cons_self b t)
    have h2 : beNat t < 256 ^ t.length := ih (fun x hx => hb x (List.mem_cons_of_mem b hx))
    have e : (256 : Nat) ^ (b :: t).length = 256 * 256 ^ t.length := by
      rw [List.length_cons, pow_succ]; ring
    rw [e]
    nlinarith

theorem natBits_beNat (bs : Bytes) (hb : ∀ b ∈ bs, b < 256) :
    natBits (beNat bs) (8 * bs.length) = bytesToBits bs := by
  induction bs with
  | nil => rfl
  | cons b t ih =>
    have h2 : beNat t < 256 ^ t.length := beNat_lt t (fun x hx => hb x (List.mem_cons_of_mem b hx))
    have e1 : 8 * (b :: t).length = 8 + 8 * t.length := by
      rw [List.length_cons]; ring
    have e2 : (2 : Nat) ^ (8 * t.length) = 256 ^ t.length := by
      rw [pow_mul]; norm_num
    rw [e1, natBits_split, beNat_cons, e2]
    have ediv : (b * 256 ^ t.length + beNat t) / 256 ^ t.length = b := by
      rw [Nat.mul_comm, Nat.mul_add_div (by positivity), Nat.div_eq_of_lt h2, Nat.add_zero]
    have emod : (b * 256 ^ t.length + beNat t) % 256 ^ t.length = beNat t := by
      rw [Nat.mul_comm, Nat.mul_add_mod, Nat.mod_eq_of_lt h2]
    rw [ediv, emod, ih (fun x hx => hb x (List.mem_cons_of_mem b hx))]
    rfl

theorem b64Val_lt (b v : Nat) (h : b64Val b = some v) : v < 64 := by
  unfold b64Val at h
  split_ifs at h with h1 h2 h3 h4 h5 <;> (injection h with h0; omega)

theorem b64Groups_lt (l : List Nat) (hl : ∀ x ∈ l, x < 64) : ∀ b ∈ b64Groups l, b < 256 := by
  induction l using b64Groups.induct with
  | case1 v1 v2 v3 v4 rest ih =>
    intro b hb
    rw [b64Groups] at hb
    simp only [List.mem_cons] at hb
    have h1 := hl v1 (by simp)
    have h2 := hl v2 (by simp)
    have h3 := hl v3 (by simp)
    have h4 := hl v4 (by simp)
    rcases hb with hb | hb | hb | hb
    · omega
    · omega
    · omega
    · exact ih (fun x hx => hl x (by simp [hx])) b hb
  | case2 v1 v2 =>
    intro b hb
    rw [b64Groups] at hb
    simp only [List.mem_cons, List.not_mem_nil, or_false] at hb
    have h1 := hl v1 (by simp)
    have h2 := hl v2 (by simp)
    omega
  | case3 v1 v2 v3 =>
    intro b hb
    rw [b64Groups] at hb
    simp only [List.mem_cons, List.not_mem_nil, or_false] at hb
    have h1 := hl v1 (by simp)
    have h2 := hl v2 (by simp)
    have h3 := hl v3 (by simp)
    rcases hb with hb | hb
    · omega
    · omega
  | case4 l h1 h2 h3 =>
    intro b hb
    have he : b64Groups l = [] := by
      cases l with
      | nil => rfl
      | cons a t =>
        cases t with
        | nil => rfl
        | cons a2 t2 =>
          cases t2 with
          | nil => exact absurd rfl (h2 a a2)
          | cons a3 t3 =>
            cases t3 with
            | nil => exact absurd rfl (h3 a a2 a3)
            | cons a4 t4 => exact absurd rfl (h1 a a2 a3 a4 t4)
    rw [he] at hb
    simp at hb

theorem nodeB64_lt (s : Bytes) : ∀ b ∈ nodeB64 s, b < 256 := by
  unfold nodeB64
  apply b64Groups_lt
  intro x hx
  obtain ⟨b, _, hb⟩ := List.mem_filterMap.mp hx
  exact b64Val_lt b x hb

theorem queryId_shape (t : Nat) (rest : List Bool) (refs : List Cell) :
    queryIdOf ⟨(natBits t 32 ++ natBits 0 64) ++ rest, refs⟩ = 0 := by
  show bitsToNat ((((natBits t 32 ++ natBits 0 64) ++ rest).drop 32).take 64) = 0
  rw [List.append_assoc, List.drop_left' (length_natBits t 32),
    List.take_left' (length_natBits 0 64), bitsToNat_natBits]
  exact Nat.zero_mod _

theorem queryId_shape2 (t : Nat) (refs : List Cell) :
    queryIdOf ⟨natBits t 32 ++ natBits 0 64, refs⟩ = 0 := by
  show bitsToNat (((natBits t 32 ++ natBits 0 64).drop 32).take 64) = 0
  rw [List.drop_left' (length_natBits t 32), take_exact _ _ (length_natBits 0 64),
    bitsToNat_natBits]
  exact Nat.zero_mod _

theorem deploySource_err_hash (S : Bytes → Nat) (v c url : Bytes)
    (hc : ¬ beNat (nodeB64 c) < 2 ^ 256) :
    deploySource S v c url = .error "number does not fit in bits" := by
  rw [deploySource]
  rw [storeUint_ok beginCellB 1002 32 (by norm_num) (by show 0 + 32 ≤ 1023; norm_num), ebind_ok]
  rw [storeUint_ok _ 0 64 (by norm_num) (by
    show (beginCellB.bits ++ natBits 1002 32).length + 64 ≤ 1023
    rw [List.length_append, length_natBits]
    show 0 + 32 + 64 ≤ 1023
    norm_num), ebind_ok]
  rw [storeBuffer_ok _ (toSha256Buffer S v) (by
    show ((beginCellB.bits ++ natBits 1002 32) ++ natBits 0 64).length +
      8 * (toSha256Buffer S v).length ≤ 1023
    rw [List.length_append, List.length_append, length_natBits, length_natBits,
      toSha256Buffer, length_natToBytes]
    show 0 + 32 + 64 + 8 * 32 ≤ 1023
    norm_num), ebind_ok]
  have he : storeUint (⟨((beginCellB.bits ++ natBits 1002 32) ++ natBits 0 64) ++
      bytesToBits (toSha256Buffer S v), beginCellB.refs⟩ : Builder)
      (beNat (nodeB64 c)) 256 = .error "number does not fit in bits" := by
    rw [storeUint, if_neg hc]
  rw [he]
  rfl

theorem deploySource_err_url (S : Bytes → Nat) (v c url : Bytes)
    (hc : beNat (nodeB64 c) < 2 ^ 256) (hu : ¬ url.length ≤ 127) :
    deploySource S v c url = .error "cell capacity exceeded" := by
  rw [deploySource]
  rw [storeUint_ok beginCellB 1002 32 (by norm_num) (by show 0 + 32 ≤ 1023; norm_num), ebind_ok]
  rw [storeUint_ok _ 0 64 (by norm_num) (by
    show (beginCellB.bits ++ natBits 1002 32).length + 64 ≤ 1023
    rw [List.length_append, length_natBits]
    show 0 + 32 + 64 ≤ 1023
    norm_num), ebind_ok]
  rw [storeBuffer_ok _ (toSha256Buffer S v) (by
    show ((beginCellB.bits ++ natBits 1002 32) ++ natBits 0 64).length +
      8 * (toSha256Buffer S v).length ≤ 1023
    rw [List.length_append, List.length_append, length_natBits, length_natBits,
      toSha256Buffer, length_natToBytes]
    show 0 + 32 + 64 + 8 * 32 ≤ 1023
    norm_num), ebind_ok]
  rw [storeUint_ok _ (beNat (nodeB64 c)) 256 hc (by
    show (((beginCellB.bits ++ natBits 1002 32) ++ natBits 0 64) ++
      bytesToBits (toSha256Buffer S v)).length + 256 ≤ 1023
    rw [List.length_append, List.length_append, List.length_append, length_natBits,
      length_natBits, length_bytesToBits, toSha256Buffer, length_natToBytes]
    show 0 + 32 + 64 + 8 * 32 + 256 ≤ 1023
    norm_num), ebind_ok]
  have he : storeBuffer beginCellB url = .error "cell capacity exceeded" := by
    rw [storeBuffer, storeBits, if_neg (by
      rw [length_bytesToBits]
      have e0 : beginCellB.bits.length = 0 := rfl
      omega)]
  rw [he]
  rfl

theorem changeVerifierRegistry_err (a : Addr) (ha : ¬ validAddr a) :
    changeVerifierRegistry a = .error "invalid address" := by
  rw [changeVerifierRegistry]
  rw [storeUint_ok beginCellB 2003 32 (by norm_num) (by show 0 + 32 ≤ 1023; norm_num), ebind_ok]
  rw [storeUint_ok _ 0 64 (by norm_num) (by
    show (beginCellB.bits ++ natBits 2003 32).length + 64 ≤ 1023
    rw [List.length_append, length_natBits]
    show 0 + 32 + 64 ≤ 1023
    norm_num), ebind_ok]
  have he : storeAddress (⟨(beginCellB.bits ++ natBits 2003 32) ++ natBits 0 64,
      beginCellB.refs⟩ : Builder) a = .error "invalid address" := by
    rw [storeAddress, if_neg ha]
  rw [he]
  rfl

theorem changeAdmin_err (a : Addr) (ha : ¬ validAddr a) :
    changeAdmin a = .error "invalid address" := by
  rw [changeAdmin]
  rw [storeUint_ok beginCellB 3004 32 (by norm_num) (by show 0 + 32 ≤ 1023; norm_num), ebind_ok]
  rw [storeUint_ok _ 0 64 (by norm_num) (by
    show (beginCellB.bits ++ natBits 3004 32).length + 64 ≤ 1023
    rw [List.length_append, length_natBits]
    show 0 + 32 + 64 ≤ 1023
    norm_num), ebind_ok]
  have he : storeAddress (⟨(beginCellB.bits ++ natBits 3004 32) ++ natBits 0 64,
      beginCellB.refs⟩ : Builder) a = .error "invalid address" := by
    rw [storeAddress, if_neg ha]
  rw [he]
  rfl

theorem setDeploymentCosts_err_min (mn mx : Nat) (h1 : ¬ mn < 2 ^ 120) :
    setDeploymentCosts mn mx = .error "coins out of range" := by
  rw [setDeploymentCosts]
  rw [storeUint_ok beginCellB 6007 32 (by norm_num) (by show 0 + 32 ≤ 1023; norm_num), ebind_ok]
  rw [storeUint_ok _ 0 64 (by norm_num) (by
    show (beginCellB.bits ++ natBits 6007 32).length + 64 ≤ 1023
    rw [List.length_append, length_natBits]
    show 0 + 32 + 64 ≤ 1023
    norm_num), ebind_ok]
  have he : storeCoins (⟨(beginCellB.bits ++ natBits 6007 32) ++ natBits 0 64,
      beginCellB.refs⟩ : Builder) mn = .error "coins out of range" := by
    rw [storeCoins, if_neg h1]
  rw [he]
  rfl

theorem setDeploymentCosts_err_max (mn mx : Nat) (h1 : mn < 2 ^ 120)
    (h2 : ¬ mx < 2 ^ 120) :
    setDeploymentCosts mn mx = .error "coins out of range" := by
  have e120 : (8 : Nat) * 15 = 120 := by norm_num
  have hl1 : bytesLen mn ≤ 15 := bytesLen_le mn 15 (by rw [e120]; exact h1)
  rw [setDeploymentCosts]
  rw [storeUint_ok beginCellB 6007 32 (by norm_num) (by show 0 + 32 ≤ 1023; norm_num), ebind_ok]
  rw [storeUint_ok _ 0 64 (by norm_num) (by
    show (beginCellB.bits ++ natBits 6007 32).length + 64 ≤ 1023
    rw [List.length_append, length_natBits]
    show 0 + 32 + 64 ≤ 1023
    norm_num), ebind_ok]
  rw [storeCoins_ok _ mn h1 (by
    show ((beginCellB.bits ++ natBits 6007 32) ++ natBits 0 64).length +
      (4 + 8 * bytesLen mn) ≤ 1023
    rw [List.length_append, List.length_append, length_natBits, length_natBits]
    have e0 : beginCellB.bits.length = 0 := rfl
    omega), ebind_ok]
  have he : storeCoins (⟨((beginCellB.bits ++ natBits 6007 32) ++ natBits 0 64) ++
      (natBits (bytesLen mn) 4 ++ natBits mn (8 * bytesLen mn)),
      beginCellB.refs⟩ : Builder) mx = .error "coins out of range" := by
    rw [storeCoins, if_neg h2]
  rw [he]
  rfl

/-- C3: for every verifier id, content hash and URL within capacity, `deploySource`
produces the frame [op 1002 : 32][query id : 64][sha256(verifierId) : 256]
[base64-decoded contentHash : 256] with one reference cell carrying the content
pointer bytes; when the decoded hash is exactly 32 bytes, its 256-bit field is
exactly the raw decoded bytes. -/
theorem deploySource_frame (S : Bytes → Nat) (v c url : Bytes)
    (hc : beNat (nodeB64 c) < 2 ^ 256) (hurl : url.length ≤ 127) :
    deploySource S v c url =
      .ok ⟨natBits 1002 32 ++ natBits 0 64 ++ natBits (S v) 256 ++
            natBits (beNat (nodeB64 c)) 256, [⟨bytesToBits url, []⟩]⟩
    ∧ ((nodeB64 c).length = 32 →
        natBits (beNat (nodeB64 c)) 256 = bytesToBits (nodeB64 c)) := by
  refine ⟨deploySource_ok S v c url hc hurl, fun h32 => ?_⟩
  have hn := natBits_beNat (nodeB64 c) (nodeB64_lt c)
  rw [h32] at hn
  norm_num at hn
  exact hn

/-- C3 witness: the frame of a concrete deploy message whose content hash is the
44-character base64 text decoding to 32 zero bytes. -/
theorem deploySource_frame_witness :
    (deploySource encB [1] (List.replicate 43 65 ++ [61]) [7] =
      .ok ⟨natBits 1002 32 ++ natBits 0 64 ++ natBits (encB [1]) 256 ++
            natBits (beNat (nodeB64 (List.replicate 43 65 ++ [61]))) 256,
           [⟨bytesToBits [7], []⟩]⟩)
    ∧ ((nodeB64 (List.replicate 43 65 ++ [61])).length = 32 →
        natBits (beNat (nodeB64 (List.replicate 43 65 ++ [61]))) 256 =
          bytesToBits (nodeB64 (List.replicate 43 65 ++ [61]))) :=
  deploySource_frame encB [1] (List.replicate 43 65 ++ [61]) [7] (by decide) (by decide)

/-- C4 (corrected): the key is the 32-byte digest of the single combined string
`verifierId:contentHash`; equal input pairs give equal keys, and input pairs whose
combined strings differ give different keys unless the digest collides on them. -/
theorem prepareKey_combined_digest (S : Bytes → Nat) (v v' c c' : Bytes)
    (hS : S (keyPreimage v c) < 2 ^ 256) (hS' : S (keyPreimage v' c') < 2 ^ 256) :
    prepareKey S v c = natToBytes (S (keyPreimage v c)) 32
    ∧ (v = v' → c = c' → prepareKey S v c = prepareKey S v' c')
    ∧ (keyPreimage v c ≠ keyPreimage v' c' →
        S (keyPreimage v c) ≠ S (keyPreimage v' c') →
        prepareKey S v c ≠ prepareKey S v' c') := by
  refine ⟨rfl, ?_, ?_⟩
  · intro h1 h2; rw [h1, h2]
  · intro _ hS2 he
    have hb := congrArg bytesToBits he
    unfold prepareKey at hb
    rw [bytesToBits_natToBytes, bytesToBits_natToBytes] at hb
    norm_num at hb
    exact hS2 (natBits_injOn _ _ 256 hS hS' hb)

/-- C4 counterexample: the distinct input pairs ("a:b", "c") and ("a", "b:c")
produce the same key for any digest, because both combine to the same string
"a:b:c"; this refutes the claimed equivalence of key equality and input-pair
equality even granting a collision-free digest. -/
theorem prepareKey_pair_collision :
    prepareKey encB [97, 58, 98] [99] = prepareKey encB [97] [98, 58, 99]
    ∧ ¬ (([97, 58, 98] : Bytes) = [97] ∧ ([99] : Bytes) = [98, 58, 99]) :=
  ⟨rfl, by decide⟩

/-- C4 witness: concrete keys of two pairs with distinct combined strings differ. -/
theorem prepareKey_combined_digest_witness :
    prepareKey encB [1] [2] = natToBytes (encB (keyPreimage [1] [2])) 32
    ∧ (([1] : Bytes) = [3] → ([2] : Bytes) = [2] →
        prepareKey encB [1] [2] = prepareKey encB [3] [2])
    ∧ (keyPreimage [1] [2] ≠ keyPreimage [3] [2] →
        encB (keyPreimage [1] [2]) ≠ encB (keyPreimage [3] [2]) →
        prepareKey encB [1] [2] ≠ prepareKey encB [3] [2]) :=
  prepareKey_combined_digest encB [1] [3] [2] [2] (by decide) (by decide)

/-- C9 (corrected): the deploy encoder never raises an invalid-encoding error:
for any content-hash text, also malformed base64, it succeeds whenever the
leniently decoded value fits 256 bits and the URL fits one cell; its only
failures are a decoded value of more than 256 bits or an oversized URL. -/
theorem deploySource_failure_modes (S : Bytes → Nat) (v c url : Bytes) :
    (beNat (nodeB64 c) < 2 ^ 256 → url.length ≤ 127 →
      deploySource S v c url =
        .ok ⟨natBits 1002 32 ++ natBits 0 64 ++ natBits (S v) 256 ++
              natBits (beNat (nodeB64 c)) 256, [⟨bytesToBits url, []⟩]⟩)
    ∧ (¬ beNat (nodeB64 c) < 2 ^ 256 →
        deploySource S v c url = .error "number does not fit in bits")
    ∧ (beNat (nodeB64 c) < 2 ^ 256 → ¬ url.length ≤ 127 →
        deploySource S v c url = .error "cell capacity exceeded") :=
  ⟨fun h1 h2 => deploySource_ok S v c url h1 h2,
   fun h1 => deploySource_err_hash S v c url h1,
   fun h1 h2 => deploySource_err_url S v c url h1 h2⟩

/-- C9 counterexample: the byte "!" is not well-formed base64, yet the encoder
succeeds on it (the decoder skips the invalid byte); and the well-formed
48-character base64 text of 48 underscores decodes to 36 bytes and makes the
encoder fail, although the claim promises success for every well-formed input
and an invalid-encoding failure for every malformed one. -/
theorem deploySource_invalid_encoding_counterexample :
    wellFormedBase64 [33] = false
    ∧ deploySource encB [1] [33] [7] =
        .ok ⟨natBits 1002 32 ++ natBits 0 64 ++ natBits (encB [1]) 256 ++
              natBits (beNat (nodeB64 [33])) 256, [⟨bytesToBits [7], []⟩]⟩
    ∧ wellFormedBase64 (List.replicate 48 95) = true
    ∧ deploySource encB [1] (List.replicate 48 95) [7] =
        .error "number does not fit in bits" := by
  refine ⟨rfl, by rfl, rfl, by rfl⟩

/-- C9 witness: the amended behavior at the two concrete inputs above. -/
theorem deploySource_failure_modes_witness :
    deploySource encB [1] [33] [7] =
      .ok ⟨natBits 1002 32 ++ natBits 0 64 ++ natBits (encB [1]) 256 ++
            natBits (beNat (nodeB64 [33])) 256, [⟨bytesToBits [7], []⟩]⟩
    ∧ deploySource encB [1] (List.replicate 48 95) [7] =
        .error "number does not fit in bits" :=
  ⟨(deploySource_failure_modes encB [1] [33] [7]).1 (by decide) (by decide),
   (deploySource_failure_modes encB [1] (List.replicate 48 95) [7]).2.1 (by decide)⟩

/-- C10: each of the six message encoders writes the 64-bit query-identifier field
as the constant 0 on every successful encoding; no argument of any encoder can
change that field. -/
theorem queryId_always_zero (S : Bytes → Nat) (v c url : Bytes) (a1 a2 : Addr)
    (cc1 cc2 : Cell) (mn mx : Nat) :
    (∀ cl, deploySource S v c url = Except.ok cl → queryIdOf cl = 0)
    ∧ (∀ cl, changeVerifierRegistry a1 = Except.ok cl → queryIdOf cl = 0)
    ∧ (∀ cl, changeAdmin a2 = Except.ok cl → queryIdOf cl = 0)
    ∧ (∀ cl, setSourceItemCode cc1 = Except.ok cl → queryIdOf cl = 0)
    ∧ (∀ cl, changeCode cc2 = Except.ok cl → queryIdOf cl = 0)
    ∧ (∀ cl, setDeploymentCosts mn mx = Except.ok cl → queryIdOf cl = 0) := by
  refine ⟨?_, ?_, ?_, ?_, ?_, ?_⟩
  · intro cl h
    by_cases h1 : beNat (nodeB64 c) < 2 ^ 256
    · by_cases h2 : url.length ≤ 127
      · rw [deploySource_ok S v c url h1 h2] at h
        injection h with h3
        subst h3
        rw [show natBits 1002 32 ++ natBits 0 64 ++ natBits (S v) 256 ++
            natBits (beNat (nodeB64 c)) 256 =
            (natBits 1002 32 ++ natBits 0 64) ++
              (natBits (S v) 256 ++ natBits (beNat (nodeB64 c)) 256) from by
          rw [List.append_assoc]]
        exact queryId_shape 1002 _ _
      · rw [deploySource_err_url S v c url h1 h2] at h
        exact Except.noConfusion h
    · rw [deploySource_err_hash S v c url h1] at h
      exact Except.noConfusion h
  · intro cl h
    by_cases h1 : validAddr a1
    · rw [changeVerifierRegistry_ok a1 h1] at h
      injection h with h3
      subst h3
      exact queryId_shape 2003 _ _
    · rw [changeVerifierRegistry_err a1 h1] at h
      exact Except.noConfusion h
  · intro cl h
    by_cases h1 : validAddr a2
    · rw [changeAdmin_ok a2 h1] at h
      injection h with h3
      subst h3
      exact queryId_shape 3004 _ _
    · rw [changeAdmin_err a2 h1] at h
      exact Except.noConfusion h
  · intro cl h
    rw [setSourceItemCode_ok cc1] at h
    injection h with h3
    subst h3
    exact queryId_shape2 4005 _
  · intro cl h
    rw [changeCode_ok cc2] at h
    injection h with h3
    subst h3
    exact queryId_shape2 5006 _
  · intro cl h
    by_cases h1 : mn < 2 ^ 120
    · by_cases h2 : mx < 2 ^ 120
      · rw [setDeploymentCosts_ok mn mx h1 h2] at h
        injection h with h3
        subst h3
        rw [show natBits 6007 32 ++ natBits 0 64 ++
            (natBits (bytesLen mn) 4 ++ natBits mn (8 * bytesLen mn)) ++
            (natBits (bytesLen mx) 4 ++ natBits mx (8 * bytesLen mx)) =
            (natBits 6007 32 ++ natBits 0 64) ++
              ((natBits (bytesLen mn) 4 ++ natBits mn (8 * bytesLen mn)) ++
                (natBits (bytesLen mx) 4 ++ natBits mx (8 * bytesLen mx))) from by
          rw [List.append_assoc]]
        exact queryId_shape 6007 _ _
      · rw [setDeploymentCosts_err_max mn mx h1 h2] at h
        exact Except.noConfusion h
    · rw [setDeploymentCosts_err_min mn mx h1] at h
      exact Except.noConfusion h

/-- C10 witness: the query-identifier field of each of the six encoders applied at
concrete inputs is 0. -/
theorem queryId_always_zero_witness :
    queryIdOf ⟨natBits 1002 32 ++ natBits 0 64 ++ natBits (encB [1]) 256 ++
      natBits (beNat (nodeB64 [65])) 256, [⟨bytesToBits [7], []⟩]⟩ = 0
    ∧ queryIdOf ⟨natBits 2003 32 ++ natBits 0 64 ++ addrBits ⟨0, 5⟩, []⟩ = 0
    ∧ queryIdOf ⟨natBits 3004 32 ++ natBits 0 64 ++ addrBits ⟨0, 6⟩, []⟩ = 0
    ∧ queryIdOf ⟨natBits 4005 32 ++ natBits 0 64, [⟨[true], []⟩]⟩ = 0
    ∧ queryIdOf ⟨natBits 5006 32 ++ natBits 0 64, [⟨[], []⟩]⟩ = 0
    ∧ queryIdOf ⟨natBits 6007 32 ++ natBits 0 64 ++
        (natBits (bytesLen 5) 4 ++ natBits 5 (8 * bytesLen 5)) ++
        (natBits (bytesLen 9) 4 ++ natBits 9 (8 * bytesLen 9)), []⟩ = 0 := by
  obtain ⟨q1, q2, q3, q4, q5, q6⟩ :=
    queryId_always_zero encB [1] [65] [7] ⟨0, 5⟩ ⟨0, 6⟩ ⟨[true], []⟩ ⟨[], []⟩ 5 9
  exact ⟨q1 _ (deploySource_ok encB [1] [65] [7] (by decide) (by decide)),
    q2 _ (changeVerifierRegistry_ok ⟨0, 5⟩ (by decide)),
    q3 _ (changeAdmin_ok ⟨0, 6⟩ (by decide)),
    q4 _ (setSourceItemCode_ok ⟨[true], []⟩),
    q5 _ (changeCode_ok ⟨[], []⟩),
    q6 _ (setDeploymentCosts_ok 5 9 (by norm_num) (by norm_num))⟩

/-- C1: `keyToAddress` is deterministic, and changing exactly one of the verifier
id, the content hash, the registry address or the source-item code template
changes the output address, contingent on digest collision resistance.  The
crypto contingency appears as hypotheses only where the preimages provably
differ: the combined digest preimages differ whenever one input string differs
(conjuncts two and three), the hashed state-init cells differ whenever the key
digests, the registry address or the template differ (conjuncts four to seven),
and differing state-init hashes give differing addresses (conjuncts eight to
eleven). -/
theorem keyToAddress_det_and_sensitive
    (S : Bytes → Nat) (H : Cell → Nat) (srcItem srcItem' : Cell)
    (v v' c c' : Bytes) (r r' : Addr)
    (hr : validAddr r) (hr' : validAddr r')
    (hS : S (keyPreimage v c) < 2 ^ 256)
    (hSv : S (keyPreimage v' c) < 2 ^ 256)
    (hSc : S (keyPreimage v c') < 2 ^ 256)
    (hH : H (siVal S srcItem v c r) < 2 ^ 256)
    (hHv : H (siVal S srcItem v' c r) < 2 ^ 256)
    (hHc : H (siVal S srcItem v c' r) < 2 ^ 256)
    (hHr : H (siVal S srcItem v c r') < 2 ^ 256)
    (hHs : H (siVal S srcItem' v c r) < 2 ^ 256) :
    keyToAddress S H srcItem v c r = keyToAddress S H srcItem v c r
    ∧ (v ≠ v' → keyPreimage v c ≠ keyPreimage v' c)
    ∧ (c ≠ c' → keyPreimage v c ≠ keyPreimage v c')
    ∧ (S (keyPreimage v c) ≠ S (keyPreimage v' c) →
        siVal S srcItem v c r ≠ siVal S srcItem v' c r)
    ∧ (S (keyPreimage v c) ≠ S (keyPreimage v c') →
        siVal S srcItem v c r ≠ siVal S srcItem v c' r)
    ∧ (r ≠ r' → siVal S srcItem v c r ≠ siVal S srcItem v c r')
    ∧ (srcItem ≠ srcItem' → siVal S srcItem v c r ≠ siVal S srcItem' v c r)
    ∧ (H (siVal S srcItem v c r) ≠ H (siVal S srcItem v' c r) →
        keyToAddress S H srcItem v c r ≠ keyToAddress S H srcItem v' c r)
    ∧ (H (siVal S srcItem v c r) ≠ H (siVal S srcItem v c' r) →
        keyToAddress S H srcItem v c r ≠ keyToAddress S H srcItem v c' r)
    ∧ (H (siVal S srcItem v c r) ≠ H (siVal S srcItem v c r') →
        keyToAddress S H srcItem v c r ≠ keyToAddress S H srcItem v c r')
    ∧ (H (siVal S srcItem v c r) ≠ H (siVal S srcItem' v c r) →
        keyToAddress S H srcItem v c r ≠ keyToAddress S H srcItem' v c r) := by
  refine ⟨rfl, keyPreimage_ne_left v v' c, keyPreimage_ne_right v c c',
    ?_, ?_, ?_, ?_, ?_, ?_, ?_, ?_⟩
  · intro hne heq
    obtain ⟨-, hbits, -⟩ := siVal_data_inj S srcItem srcItem v v' c c r r heq
    rw [bits_of_prepareKey, bits_of_prepareKey] at hbits
    exact hne (natBits_injOn _ _ 256 hS hSv hbits)
  · intro hne heq
    obtain ⟨-, hbits, -⟩ := siVal_data_inj S srcItem srcItem v v c c' r r heq
    rw [bits_of_prepareKey, bits_of_prepareKey] at hbits
    exact hne (natBits_injOn _ _ 256 hS hSc hbits)
  · intro hne heq
    obtain ⟨-, -, haddr⟩ := siVal_data_inj S srcItem srcItem v v c c r r' heq
    exact hne (addrBits_injOn r r' hr hr' haddr)
  · intro hne heq
    obtain ⟨hsrc, -, -⟩ := siVal_data_inj S srcItem srcItem' v v c c r r heq
    exact hne hsrc
  · intro hne
    rw [keyToAddress_ok S H srcItem v c r hr hH,
      keyToAddress_ok S H srcItem v' c r hr hHv]
    intro heq
    simp only [Except.ok.injEq, Addr.mk.injEq] at heq
    exact hne heq.2
  · intro hne
    rw [keyToAddress_ok S H srcItem v c r hr hH,
      keyToAddress_ok S H srcItem v c' r hr hHc]
    intro heq
    simp only [Except.ok.injEq, Addr.mk.injEq] at heq
    exact hne heq.2
  · intro hne
    rw [keyToAddress_ok S H srcItem v c r hr hH,
      keyToAddress_ok S H srcItem v c r' hr' hHr]
    intro heq
    simp only [Except.ok.injEq, Addr.mk.injEq] at heq
    exact hne heq.2
  · intro hne
    rw [keyToAddress_ok S H srcItem v c r hr hH,
      keyToAddress_ok S H srcItem' v c r hr hHs]
    intro heq
    simp only [Except.ok.injEq, Addr.mk.injEq] at heq
    exact hne heq.2

/-- The compiled source-item template cell used by the witnesses, and a second,
different template. -/
def srcW : Cell := ⟨[], []⟩

/-- A second template cell for the sensitivity witnesses. -/
def srcW2 : Cell := ⟨[true], []⟩

/-- A concrete registry address for the witnesses. -/
def rW : Addr := ⟨0, 5⟩

/-- A second registry address for the sensitivity witnesses. -/
def rW2 : Addr := ⟨0, 6⟩

/-- A concrete stand-in cell hash for the witnesses: it distinguishes the five
state-init cells the witness touches and is small on each of them. -/
def Hw : Cell → Nat := fun cl =>
  if cl = siVal encB srcW [1] [3] rW then 10
  else if cl = siVal encB srcW [2] [3] rW then 11
  else if cl = siVal encB srcW [1] [4] rW then 12
  else if cl = siVal encB srcW [1] [3] rW2 then 13
  else if cl = siVal encB srcW2 [1] [3] rW then 14
  else 99

/-- C1 witness: at concrete inputs, changing the verifier id, the content hash,
the registry address or the template each changes the derived address. -/
theorem keyToAddress_det_and_sensitive_witness :
    keyToAddress encB Hw srcW [1] [3] rW = keyToAddress encB Hw srcW [1] [3] rW
    ∧ keyToAddress encB Hw srcW [1] [3] rW ≠ keyToAddress encB Hw srcW [2] [3] rW
    ∧ keyToAddress encB Hw srcW [1] [3] rW ≠ keyToAddress encB Hw srcW [1] [4] rW
    ∧ keyToAddress encB Hw srcW [1] [3] rW ≠ keyToAddress encB Hw srcW [1] [3] rW2
    ∧ keyToAddress encB Hw srcW [1] [3] rW ≠ keyToAddress encB Hw srcW2 [1] [3] rW := by
  obtain ⟨hdet, -, -, -, -, -, -, h8, h9, h10, h11⟩ :=
    keyToAddress_det_and_sensitive encB Hw srcW srcW2 [1] [2] [3] [4] rW rW2
      (by decide) (by decide) (by decide) (by decide) (by decide)
      (by decide) (by decide) (by decide) (by decide) (by decide)
  exact ⟨hdet, h8 (by decide), h9 (by decide), h10 (by decide), h11 (by decide)⟩

/-- C2 (code divergence): at a concrete input, the initial child storage that
`keyToAddress` builds is the single combined digest of `verifierId:contentHash`
followed by the registry address (523 data bits), not the claimed four-tuple
(digest of the verifier id, raw decoded content hash, registry address,
empty-content marker) of the spec and of the wire format (780 data bits); the
two layouts differ for every choice of digest. -/
theorem srcItemData_layout_eval :
    srcItemData encB [109] [65] rW =
      Except.ok ⟨natBits (encB (keyPreimage [109] [65])) 256 ++ addrBits rW, []⟩
    ∧ (natBits (encB (keyPreimage [109] [65])) 256 ++ addrBits rW).length = 523
    ∧ (specChildStorage (encB [109]) (beNat (nodeB64 [65])) rW).bits.length = 780
    ∧ (⟨natBits (encB (keyPreimage [109] [65])) 256 ++ addrBits rW, []⟩ : Cell) ≠
        specChildStorage (encB [109]) (beNat (nodeB64 [65])) rW := by
  refine ⟨?_, by decide, by decide, by decide⟩
  rw [srcItemData_ok encB [109] [65] rW (by decide), bits_of_prepareKey]

theorem applyCode_of_reject (s : RegState) (ctx : RegCtx) (op : RegOp) (code : Nat)
    (h : applyReg s ctx op = .reject code) : applyCode s ctx op = code := by
  unfold applyCode
  rw [h]

theorem applyCode_of_ok (s : RegState) (ctx : RegCtx) (op : RegOp) (s2 : RegState)
    (act : Option DeployAct) (h : applyReg s ctx op = .ok s2 act) :
    applyCode s ctx op = 0 := by
  unfold applyCode
  rw [h]

theorem applyState_of_reject (s : RegState) (ctx : RegCtx) (op : RegOp) (code : Nat)
    (h : applyReg s ctx op = .reject code) : applyState s ctx op = s := by
  unfold applyState
  rw [h]

theorem deploy_auth_base (s : RegState) (ctx : RegCtx) (vk ck : Nat) (ptr : Bytes)
    (hs : ctx.sender = s.verifierRegistryAddress) :
    applyReg s ctx (.deploySrc vk ck ptr) =
      (if ctx.attachedValue < s.minTons then .reject 900
       else if s.maxTons < ctx.attachedValue then .reject 901
       else .ok s (some ⟨vk, ck, ptr⟩)) := by
  rw [applyReg, if_neg (show ¬ ctx.sender ≠ s.verifierRegistryAddress from fun hne => hne hs)]

/-- C5: a deploy sent by the configured verifier source is rejected with 900
strictly below the minimum fee, rejected with 901 strictly above the maximum
fee (once the minimum is met), and succeeds with exit code 0 at exactly either
bound or in between. -/
theorem deploy_fee_bounds (s : RegState) (ctx : RegCtx) (vk ck : Nat) (ptr : Bytes)
    (hs : ctx.sender = s.verifierRegistryAddress) :
    (ctx.attachedValue < s.minTons → applyCode s ctx (.deploySrc vk ck ptr) = 900)
    ∧ (s.minTons ≤ ctx.attachedValue → s.maxTons < ctx.attachedValue →
        applyCode s ctx (.deploySrc vk ck ptr) = 901)
    ∧ (s.minTons ≤ ctx.attachedValue → ctx.attachedValue ≤ s.maxTons →
        applyCode s ctx (.deploySrc vk ck ptr) = 0
        ∧ applyReg s ctx (.deploySrc vk ck ptr) = .ok s (some ⟨vk, ck, ptr⟩)) := by
  refine ⟨?_, ?_, ?_⟩
  · intro h1
    exact applyCode_of_reject _ _ _ _ (by rw [deploy_auth_base s ctx vk ck ptr hs, if_pos h1])
  · intro h1 h2
    exact applyCode_of_reject _ _ _ _
      (by rw [deploy_auth_base s ctx vk ck ptr hs, if_neg (by omega), if_pos h2])
  · intro h1 h2
    have hok : applyReg s ctx (.deploySrc vk ck ptr) = .ok s (some ⟨vk, ck, ptr⟩) := by
      rw [deploy_auth_base s ctx vk ck ptr hs, if_neg (by omega), if_neg (by omega)]
    exact ⟨applyCode_of_ok _ _ _ _ _ hok, hok⟩

/-- C5 witness: with bounds 5 and 9, value 4 gives 900, value 10 gives 901, and
values 5 and 9 (the exact bounds) give exit code 0. -/
theorem deploy_fee_bounds_witness :
    applyCode ⟨5, 9, ⟨0, 1⟩, ⟨0, 2⟩, srcW, srcW⟩ ⟨⟨0, 2⟩, 4⟩ (.deploySrc 7 8 [9]) = 900
    ∧ applyCode ⟨5, 9, ⟨0, 1⟩, ⟨0, 2⟩, srcW, srcW⟩ ⟨⟨0, 2⟩, 10⟩ (.deploySrc 7 8 [9]) = 901
    ∧ applyCode ⟨5, 9, ⟨0, 1⟩, ⟨0, 2⟩, srcW, srcW⟩ ⟨⟨0, 2⟩, 5⟩ (.deploySrc 7 8 [9]) = 0
    ∧ applyCode ⟨5, 9, ⟨0, 1⟩, ⟨0, 2⟩, srcW, srcW⟩ ⟨⟨0, 2⟩, 9⟩ (.deploySrc 7 8 [9]) = 0 :=
  ⟨(deploy_fee_bounds _ ⟨⟨0, 2⟩, 4⟩ 7 8 [9] rfl).1 (by norm_num),
   (deploy_fee_bounds _ ⟨⟨0, 2⟩, 10⟩ 7 8 [9] rfl).2.1 (by norm_num) (by norm_num),
   ((deploy_fee_bounds _ ⟨⟨0, 2⟩, 5⟩ 7 8 [9] rfl).2.2 (by norm_num) (by norm_num)).1,
   ((deploy_fee_bounds _ ⟨⟨0, 2⟩, 9⟩ 7 8 [9] rfl).2.2 (by norm_num) (by norm_num)).1⟩

/-- C6: every deploy whose sender is not the stored verifier source is rejected
with 401 with the registry state unchanged, whoever the sender is (the admin
included); and every admin-gated operation whose sender is not the stored admin
is rejected with 401 with the state unchanged, whoever the sender is (the
verifier source included).  The two sender conditions guard their two families
independently. -/
theorem unauthorized_rejected (s : RegState) (ctx : RegCtx) (vk ck : Nat)
    (ptr : Bytes) (a : Addr) (cde : Cell) (nmin nmax : Nat) :
    (ctx.sender ≠ s.verifierRegistryAddress →
      applyCode s ctx (.deploySrc vk ck ptr) = 401
      ∧ applyState s ctx (.deploySrc vk ck ptr) = s)
    ∧ (ctx.sender ≠ s.admin →
      (applyCode s ctx (.changeVerifierSrc a) = 401
        ∧ applyState s ctx (.changeVerifierSrc a) = s)
      ∧ (applyCode s ctx (.changeAdminOp a) = 401
        ∧ applyState s ctx (.changeAdminOp a) = s)
      ∧ (applyCode s ctx (.setChildCode cde) = 401
        ∧ applyState s ctx (.setChildCode cde) = s)
      ∧ (applyCode s ctx (.replaceRegCode cde) = 401
        ∧ applyState s ctx (.replaceRegCode cde) = s)
      ∧ (applyCode s ctx (.setFeeBounds nmin nmax) = 401
        ∧ applyState s ctx (.setFeeBounds nmin nmax) = s)) := by
  constructor
  · intro hv
    have r1 : applyReg s ctx (.deploySrc vk ck ptr) = .reject 401 := by
      rw [applyReg, if_pos hv]
    exact ⟨applyCode_of_reject _ _ _ _ r1, applyState_of_reject _ _ _ _ r1⟩
  · intro ha
    have r2 : applyReg s ctx (.changeVerifierSrc a) = .reject 401 := by
      rw [applyReg, if_pos ha]
    have r3 : applyReg s ctx (.changeAdminOp a) = .reject 401 := by
      rw [applyReg, if_pos ha]
    have r4 : applyReg s ctx (.setChildCode cde) = .reject 401 := by
      rw [applyReg, if_pos ha]
    have r5 : applyReg s ctx (.replaceRegCode cde) = .reject 401 := by
      rw [applyReg, if_pos ha]
    have r6 : applyReg s ctx (.setFeeBounds nmin nmax) = .reject 401 := by
      rw [applyReg, if_pos ha]
    exact ⟨⟨applyCode_of_reject _ _ _ _ r2, applyState_of_reject _ _ _ _ r2⟩,
      ⟨applyCode_of_reject _ _ _ _ r3, applyState_of_reject _ _ _ _ r3⟩,
      ⟨applyCode_of_reject _ _ _ _ r4, applyState_of_reject _ _ _ _ r4⟩,
      ⟨applyCode_of_reject _ _ _ _ r5, applyState_of_reject _ _ _ _ r5⟩,
      ⟨applyCode_of_reject _ _ _ _ r6, applyState_of_reject _ _ _ _ r6⟩⟩

/-- C6 witness: with admin workchain-0/hash-1 and verifier source
workchain-0/hash-2, a deploy sent by the admin is rejected with 401 and
changes nothing, and every admin-gated operation sent by the verifier source
is rejected with 401 and changes nothing: the cross-role cases the claim
quantifies over. -/
theorem unauthorized_rejected_witness :
    (applyCode ⟨5, 9, ⟨0, 1⟩, ⟨0, 2⟩, srcW, srcW⟩ ⟨⟨0, 1⟩, 7⟩ (.deploySrc 7 8 [9]) = 401
      ∧ applyState ⟨5, 9, ⟨0, 1⟩, ⟨0, 2⟩, srcW, srcW⟩ ⟨⟨0, 1⟩, 7⟩ (.deploySrc 7 8 [9]) =
          ⟨5, 9, ⟨0, 1⟩, ⟨0, 2⟩, srcW, srcW⟩)
    ∧ ((applyCode ⟨5, 9, ⟨0, 1⟩, ⟨0, 2⟩, srcW, srcW⟩ ⟨⟨0, 2⟩, 7⟩ (.changeVerifierSrc ⟨0, 4⟩) = 401
      ∧ applyState ⟨5, 9, ⟨0, 1⟩, ⟨0, 2⟩, srcW, srcW⟩ ⟨⟨0, 2⟩, 7⟩ (.changeVerifierSrc ⟨0, 4⟩) =
          ⟨5, 9, ⟨0, 1⟩, ⟨0, 2⟩, srcW, srcW⟩)
    ∧ (applyCode ⟨5, 9, ⟨0, 1⟩, ⟨0, 2⟩, srcW, srcW⟩ ⟨⟨0, 2⟩, 7⟩ (.changeAdminOp ⟨0, 4⟩) = 401
      ∧ applyState ⟨5, 9, ⟨0, 1⟩, ⟨0, 2⟩, srcW, srcW⟩ ⟨⟨0, 2⟩, 7⟩ (.changeAdminOp ⟨0, 4⟩) =
          ⟨5, 9, ⟨0, 1⟩, ⟨0, 2⟩, srcW, srcW⟩)
    ∧ (applyCode ⟨5, 9, ⟨0, 1⟩, ⟨0, 2⟩, srcW, srcW⟩ ⟨⟨0, 2⟩, 7⟩ (.setChildCode srcW2) = 401
      ∧ applyState ⟨5, 9, ⟨0, 1⟩, ⟨0, 2⟩, srcW, srcW⟩ ⟨⟨0, 2⟩, 7⟩ (.setChildCode srcW2) =
          ⟨5, 9, ⟨0, 1⟩, ⟨0, 2⟩, srcW, srcW⟩)
    ∧ (applyCode ⟨5, 9, ⟨0, 1⟩, ⟨0, 2⟩, srcW, srcW⟩ ⟨⟨0, 2⟩, 7⟩ (.replaceRegCode srcW2) = 401
      ∧ applyState ⟨5, 9, ⟨0, 1⟩, ⟨0, 2⟩, srcW, srcW⟩ ⟨⟨0, 2⟩, 7⟩ (.replaceRegCode srcW2) =
          ⟨5, 9, ⟨0, 1⟩, ⟨0, 2⟩, srcW, srcW⟩)
    ∧ (applyCode ⟨5, 9, ⟨0, 1⟩, ⟨0, 2⟩, srcW, srcW⟩ ⟨⟨0, 2⟩, 7⟩
        (.setFeeBounds 60000000 70000000) = 401
      ∧ applyState ⟨5, 9, ⟨0, 1⟩, ⟨0, 2⟩, srcW, srcW⟩ ⟨⟨0, 2⟩, 7⟩
          (.setFeeBounds 60000000 70000000) = ⟨5, 9, ⟨0, 1⟩, ⟨0, 2⟩, srcW, srcW⟩)) :=
  ⟨(unauthorized_rejected ⟨5, 9, ⟨0, 1⟩, ⟨0, 2⟩, srcW, srcW⟩ ⟨⟨0, 1⟩, 7⟩ 7 8 [9] ⟨0, 4⟩
      srcW2 60000000 70000000).1 (by decide),
   (unauthorized_rejected ⟨5, 9, ⟨0, 1⟩, ⟨0, 2⟩, srcW, srcW⟩ ⟨⟨0, 2⟩, 7⟩ 7 8 [9] ⟨0, 4⟩
      srcW2 60000000 70000000).2 (by decide)⟩

/-- C7 (corrected): from the admin, SetFeeBounds with a new minimum at or below
0.05 native units (50000000 nanotons) is rejected with 903, and with a new
minimum strictly above that floor it succeeds, setting both bounds with no
check on the new maximum. -/
theorem setFeeBounds_floor (s : RegState) (ctx : RegCtx) (nmin nmax : Nat)
    (ha : ctx.sender = s.admin) :
    (nmin ≤ minFeeFloor → applyCode s ctx (.setFeeBounds nmin nmax) = 903)
    ∧ (minFeeFloor < nmin →
        applyReg s ctx (.setFeeBounds nmin nmax) =
          .ok { s with minTons := nmin, maxTons := nmax } none
        ∧ applyCode s ctx (.setFeeBounds nmin nmax) = 0) := by
  have base : applyReg s ctx (.setFeeBounds nmin nmax) =
      (if nmin ≤ minFeeFloor then .reject 903
       else .ok { s with minTons := nmin, maxTons := nmax } none) := by
    rw [applyReg, if_neg (show ¬ ctx.sender ≠ s.admin from fun hne => hne ha)]
  refine ⟨?_, ?_⟩
  · intro h1
    exact applyCode_of_reject _ _ _ _ (by rw [base, if_pos h1])
  · intro h1
    have hok : applyReg s ctx (.setFeeBounds nmin nmax) =
        .ok { s with minTons := nmin, maxTons := nmax } none := by
      rw [base, if_neg (by omega)]
    exact ⟨hok, applyCode_of_ok _ _ _ _ _ hok⟩

/-- C7 counterexample: from the admin, a new minimum of exactly 0.05 native units
(50000000 nanotons) is rejected with 903, while the claim says any new minimum
at or above 0.05 succeeds; this is the boundary the repository's own fee test
pins. -/
theorem setFeeBounds_at_floor_rejected :
    applyCode ⟨65000000, 1000000000, ⟨0, 1⟩, ⟨0, 2⟩, srcW, srcW⟩ ⟨⟨0, 1⟩, 10000000⟩
      (.setFeeBounds 50000000 20000000000) = 903 := by
  decide

/-- C7 witness: from the admin, a new minimum of 0.04 native units gives 903,
and a new minimum of 10 native units succeeds, setting both bounds. -/
theorem setFeeBounds_floor_witness :
    applyCode ⟨65000000, 1000000000, ⟨0, 1⟩, ⟨0, 2⟩, srcW, srcW⟩ ⟨⟨0, 1⟩, 10000000⟩
      (.setFeeBounds 40000000 20000000000) = 903
    ∧ applyReg ⟨65000000, 1000000000, ⟨0, 1⟩, ⟨0, 2⟩, srcW, srcW⟩ ⟨⟨0, 1⟩, 10000000⟩
        (.setFeeBounds 10000000000 20000000000) =
        .ok ⟨10000000000, 20000000000, ⟨0, 1⟩, ⟨0, 2⟩, srcW, srcW⟩ none :=
  ⟨(setFeeBounds_floor _ ⟨⟨0, 1⟩, 10000000⟩ 40000000 20000000000 rfl).1 (by decide),
   ((setFeeBounds_floor _ ⟨⟨0, 1⟩, 10000000⟩ 10000000000 20000000000 rfl).2
     (by decide)).1⟩

/-- C8: a successful deploy emits a child-creation action carrying the deploy
request's content pointer; the fresh child reports a null content pointer, and
after the forwarded set-content message from its creating registry it reports
exactly the pointer bytes sent in the deploy request. -/
theorem child_content_lifecycle (s : RegState) (ctx : RegCtx) (vk ck : Nat)
    (ptr : Bytes) (myAddr : Addr)
    (hs : ctx.sender = s.verifierRegistryAddress)
    (h1 : s.minTons ≤ ctx.attachedValue) (h2 : ctx.attachedValue ≤ s.maxTons) :
    applyReg s ctx (.deploySrc vk ck ptr) = .ok s (some ⟨vk, ck, ptr⟩)
    ∧ sourceItemQuery (freshSourceItem vk ck myAddr) = (vk, ck, myAddr, none)
    ∧ sourceItemSetContent (freshSourceItem vk ck myAddr) myAddr ptr =
        .ok ⟨vk, ck, myAddr, some ptr⟩
    ∧ sourceItemQuery ⟨vk, ck, myAddr, some ptr⟩ = (vk, ck, myAddr, some ptr) := by
  refine ⟨?_, rfl, ?_, rfl⟩
  · rw [deploy_auth_base s ctx vk ck ptr hs, if_neg (by omega), if_neg (by omega)]
  · unfold sourceItemSetContent
    rw [if_neg (show ¬ myAddr ≠ (freshSourceItem vk ck myAddr).registryAddress from
      fun hne => hne rfl)]
    rfl

/-- C8 witness: the lifecycle at concrete values. -/
theorem child_content_lifecycle_witness :
    applyReg ⟨5, 9, ⟨0, 1⟩, ⟨0, 2⟩, srcW, srcW⟩ ⟨⟨0, 2⟩, 7⟩ (.deploySrc 7 8 [9]) =
      .ok ⟨5, 9, ⟨0, 1⟩, ⟨0, 2⟩, srcW, srcW⟩ (some ⟨7, 8, [9]⟩)
    ∧ sourceItemQuery (freshSourceItem 7 8 ⟨0, 6⟩) = (7, 8, ⟨0, 6⟩, none)
    ∧ sourceItemSetContent (freshSourceItem 7 8 ⟨0, 6⟩) ⟨0, 6⟩ [9] =
        .ok ⟨7, 8, ⟨0, 6⟩, some [9]⟩
    ∧ sourceItemQuery ⟨7, 8, ⟨0, 6⟩, some [9]⟩ = (7, 8, ⟨0, 6⟩, some [9]) :=
  child_content_lifecycle ⟨5, 9, ⟨0, 1⟩, ⟨0, 2⟩, srcW, srcW⟩ ⟨⟨0, 2⟩, 7⟩ 7 8 [9] ⟨0, 6⟩
    rfl (by norm_num) (by norm_num)
